import Mathlib

/-!
Verification of the real-time conversation synchronization engine of the
`mina-same/mobile` repository: a shallow embedding of the identity resolver
(`dashbaord/src/utils/helpers.js`), the message service
(`server/services/messageService.js`), the message controller
(`controllers/messageController.js`) and the socket fan-out
(`server/socket/chatHandlers.js`), together with theorems settling the
listed behavioural claims.

JavaScript strings are modelled as Lean `String` (a list of characters);
`substring`, `trim`, `toLowerCase`, `includes` and the regex replaces used
by the sources are given explicit character-list implementations so that
all definitions evaluate by kernel reduction.  Timestamps (`Date`) are
modelled as `Nat`; MongoDB documents are Lean structures, collections are
lists, and the service pipeline is a pure function from a store state to a
result and a new store state.
-/

/-- Character-level model of `String.prototype.trim`: drop whitespace from
both ends. -/
def trimChars (l : List Char) : List Char :=
  ((l.dropWhile Char.isWhitespace).reverse.dropWhile Char.isWhitespace).reverse

/-- JS `s.trim()` on a Lean string. -/
def jsTrim (s : String) : String :=
  String.mk (trimChars s.data)

/-- JS `s.toLowerCase()` (ASCII case folding, which is all the sources use). -/
def jsToLower (s : String) : String :=
  String.mk (s.data.map Char.toLower)

/-- JS `s.substring(0, n)` on a Lean string. -/
def jsSubstring (s : String) (n : Nat) : String :=
  String.mk (s.data.take n)

/-- Test `startsWithChars pat l`: `pat` starts `l` (character lists). -/
def startsWithChars : List Char → List Char → Bool
  | [], _ => true
  | _ :: _, [] => false
  | p :: ps, c :: cs => p == c && startsWithChars ps cs

/-- Test `containsChars pat l`: `pat` occurs contiguously inside `l`; model of
JS `String.prototype.includes`. -/
def containsChars (pat : List Char) : List Char → Bool
  | [] => startsWithChars pat []
  | c :: cs => startsWithChars pat (c :: cs) || containsChars pat cs

/-- JS `hay.includes(pat)` on Lean strings. -/
def jsIncludes (hay pat : String) : Bool :=
  containsChars pat.data hay.data

/-- Model of the regex replace `\s+` → `_` (a maximal run of whitespace
becomes one underscore).  The boolean argument records whether the previous
character was whitespace, so runs collapse. -/
def collapseWsAux : Bool → List Char → List Char
  | _, [] => []
  | prevWs, c :: cs =>
    if c.isWhitespace then
      if prevWs then collapseWsAux true cs
      else '_' :: collapseWsAux true cs
    else c :: collapseWsAux false cs

/-- Characters kept by the regex replace `[^a-z0-9_]` → `''`. -/
def isSlugChar (c : Char) : Bool :=
  ('a' ≤ c && c ≤ 'z') || ('0' ≤ c && c ≤ '9') || c == '_'

/-- The slug chain shared by `generateEmployeeId` (helpers.js) and the
inline employee-id derivation in `messageService.js`'s `validateSenderId`:
`name.toLowerCase().trim().replace(/\s+/g,'_').replace(/[^a-z0-9_]/g,'')`. -/
def slugify (name : String) : String :=
  String.mk ((collapseWsAux false (trimChars (jsToLower name).data)).filter isSlugChar)

/-- Function `generateEmployeeId` from `dashbaord/src/utils/helpers.js`: empty
(falsy) input returns the empty string, otherwise the `emp_`-prefixed slug. -/
def generateEmployeeId (employeeName : String) : String :=
  if employeeName == "" then ""
  else "emp_" ++ slugify employeeName

/-- The HR-marker test used by both `getSenderIdFromParticipantName`
(helpers.js) and `validateSenderId` (messageService.js):
`name.includes('(HR)') || name.toLowerCase().includes('sarah connor')`. -/
def isHRName (name : String) : Bool :=
  jsIncludes name "(HR)" || jsIncludes (jsToLower name) "sarah connor"

/-- Function `getSenderIdFromParticipantName` from `dashbaord/src/utils/helpers.js`:
the identity resolver's `deriveSenderId`.  Falsy input returns `''`; an HR
name maps to the fixed id `hr_sconnor`; any other name maps to the
employee slug. -/
def getSenderIdFromParticipantName (participantName : String) : String :=
  if participantName == "" then ""
  else if isHRName participantName then "hr_sconnor"
  else generateEmployeeId participantName

/-- The inner `validateSenderId` of `createMessage` in
`server/services/messageService.js`: fewer than two participant names is
rejected; `hr_sconnor` is accepted when `participantNames[0]` is truthy
and matches the HR marker; the `emp_`-slug of `participantNames[1]` is
accepted when that name is truthy; everything else is rejected. -/
def validateSenderId (senderId : String) (participantNames : List String) : Bool :=
  if participantNames.length < 2 then false
  else
    let hrName := participantNames.getD 0 ""
    if hrName != "" && isHRName hrName && senderId == "hr_sconnor" then true
    else
      let empName := participantNames.getD 1 ""
      empName != "" && senderId == ("emp_" ++ slugify empName)

/-- Function `doesSenderIdMatchParticipantName` from helpers.js (`isSenderFor` in
the spec): derive and compare. -/
def doesSenderIdMatchParticipantName (senderId participantName : String) : Bool :=
  if senderId == "" || participantName == "" then false
  else senderId == getSenderIdFromParticipantName participantName

/-- Attachment subdocument of the Message model (`models/Message.js`):
`{url, type ∈ {image,file}, name, size, publicId}`. -/
structure Attachment where
  url : String
  type : String
  name : String
  size : Nat
  publicId : Option String
deriving DecidableEq

/-- Conversation document (`models/Conversation.js`).  `id` is the
store-assigned `_id` (a 24-hex-digit ObjectId rendered as a string);
`lastMessageTimestamp` is `none` when absent or null. -/
structure Conversation where
  id : String
  employeeId : String
  employeeName : String
  participantNames : List String
  lastMessage : String
  lastMessageTimestamp : Option Nat
deriving DecidableEq

/-- Message document (`models/Message.js`).  `id` models the store-assigned
`_id`; `timestamp` is the server-assigned `sentAt`. -/
structure Message where
  id : Nat
  conversationId : String
  senderId : String
  text : String
  attachments : List Attachment
  timestamp : Nat
deriving DecidableEq

/-- The document store visible to the service: the two collections. -/
structure ServerState where
  conversations : List Conversation
  messages : List Message
deriving DecidableEq

/-- The caller-visible validation failures of the append pipeline
(controller `createMessage` plus service `createMessage`). -/
inductive AppendError where
  | MissingFields
  | EmptyMessage
  | MessageTooLong
  | InvalidAttachment
  | ConversationNotFound
  | InvalidSender
deriving DecidableEq

/-- The regex `/^[0-9a-fA-F]{24}$/` used before `findById`: 24 hex digits. -/
def isObjectIdLike (s : String) : Bool :=
  s.data.length == 24 &&
    s.data.all (fun c =>
      ('0' ≤ c && c ≤ '9') || ('a' ≤ c && c ≤ 'f') || ('A' ≤ c && c ≤ 'F'))

/-- The dual conversation lookup shared by `createMessage`,
`getMessagesByConversationId` and the socket subscribe handlers: try
`findOne({employeeId})` first; only if that misses and the key looks like
an ObjectId, try `findById`. -/
def resolveConversation (convs : List Conversation) (key : String) : Option Conversation :=
  match convs.find? (fun c => c.employeeId == key) with
  | some c => some c
  | none =>
    if isObjectIdLike key then convs.find? (fun c => c.id == key)
    else none

/-- The controller's per-attachment validation: `url`, `type`, `name`
truthy and `type` one of `image`/`file`. -/
def validAttachment (a : Attachment) : Bool :=
  a.url != "" && a.type != "" && a.name != "" &&
    (a.type == "image" || a.type == "file")

/-- The preview builder inside the service's `createMessage`: trimmed text,
then the first attachment tagged with 📷 (image) or 📄 (other), then
`(+N)` when more than one attachment is present. -/
def buildPreview (text : String) (attachments : List Attachment) : String :=
  let base := jsTrim text
  match attachments with
  | [] => base
  | a :: rest =>
    let tagged :=
      if a.type == "image" then
        if base != "" then base ++ " 📷 " ++ a.name else "📷 " ++ a.name
      else
        if base != "" then base ++ " 📄 " ++ a.name else "📄 " ++ a.name
    if rest.length ≥ 1 then tagged ++ " (+" ++ toString rest.length ++ ")"
    else tagged

/-- The `$or` guard of the metadata `findOneAndUpdate`: fire when
`lastMessageTimestamp` is absent/null or strictly earlier than the new
message's timestamp. -/
def metaGuard (current : Option Nat) (ts : Nat) : Bool :=
  match current with
  | none => true
  | some t0 => decide (t0 < ts)

/-- One conversation's view of the conditional metadata update
(`findOneAndUpdate` on `_id = target` with the `metaGuard` condition):
set the 100-character preview and the message timestamp only when both
the id filter and the guard match. -/
def condUpdateMeta (c : Conversation) (target : String) (preview : String) (ts : Nat) : Conversation :=
  if c.id == target && metaGuard c.lastMessageTimestamp ts then
    { c with lastMessage := jsSubstring preview 100, lastMessageTimestamp := some ts }
  else c

/-- Ascending `sentAt` order used by `.sort({ timestamp: 1 })`. -/
def msgLe (a b : Message) : Prop := a.timestamp ≤ b.timestamp

instance : DecidableRel msgLe := fun a b => Nat.decLe a.timestamp b.timestamp

instance : IsTotal Message msgLe := ⟨fun a b => Nat.le_total a.timestamp b.timestamp⟩

instance : IsTrans Message msgLe := ⟨fun _ _ _ h1 h2 => Nat.le_trans h1 h2⟩

/-- Query `Message.find` on the conversation id followed by an ascending sort on `timestamp`. -/
def sortedMessagesOf (msgs : List Message) (convId : String) : List Message :=
  List.insertionSort msgLe (msgs.filter (fun m => m.conversationId == convId))

/-- Function `getMessagesByConversationId` from `messageService.js`: dual lookup,
`Conversation not found` on a miss, else the conversation's messages
ascending by timestamp. -/
def getMessagesByConversationId (st : ServerState) (key : String) : Except AppendError (List Message) :=
  match resolveConversation st.conversations key with
  | none => Except.error AppendError.ConversationNotFound
  | some conv => Except.ok (sortedMessagesOf st.messages conv.id)

/-- The full append pipeline: the controller `createMessage`
(missing-field, empty-message, length and attachment checks, in source
order) followed by the service `createMessage` (dual lookup, sender
validation, preview build, save with a server-assigned timestamp, then the
conditional metadata update).  Returns the result together with the store
state after the call; every failure path leaves the state untouched
because in the source every throw happens before `newMessage.save()`. -/
def appendMessage (st : ServerState) (conversationId senderId text : String)
    (attachments : List Attachment) (now : Nat) :
    Except AppendError Message × ServerState :=
  if conversationId == "" || senderId == "" then
    (Except.error AppendError.MissingFields, st)
  else if jsTrim text == "" && attachments.isEmpty then
    (Except.error AppendError.EmptyMessage, st)
  else if (jsTrim text).data.length > 1000 then
    (Except.error AppendError.MessageTooLong, st)
  else if !(attachments.all validAttachment) then
    (Except.error AppendError.InvalidAttachment, st)
  else
    match resolveConversation st.conversations conversationId with
    | none => (Except.error AppendError.ConversationNotFound, st)
    | some conv =>
      if !(validateSenderId senderId conv.participantNames) then
        (Except.error AppendError.InvalidSender, st)
      else
        let preview := buildPreview text attachments
        let msg : Message :=
          { id := st.messages.length
            conversationId := conv.id
            senderId := senderId
            text := jsTrim text
            attachments := attachments
            timestamp := now }
        let st' : ServerState :=
          { conversations :=
              st.conversations.map (fun c => condUpdateMeta c conv.id preview now)
            messages := st.messages ++ [msg] }
        (Except.ok msg, st')

/-- One socket emission of the fan-out broker: the room it targets, the
event name, the message payload (populated, for `message:new`) and the
resolved conversation it carries or embeds. -/
structure Emission where
  room : String
  event : String
  message : Option Message
  conversation : Conversation
deriving DecidableEq

/-- The Message change-stream handler in `socket/chatHandlers.js`: on an
insert, re-fetch the message by id with its conversation populated; when
both resolve, emit `message:new` to the conversation's room and
`conversation:updated` (carrying the refreshed conversation) to the global
`conversations` room; when either lookup misses, emit nothing (the error
is only logged). -/
def handleMessageInsert (st : ServerState) (msgId : Nat) : List Emission :=
  match st.messages.find? (fun m => m.id == msgId) with
  | none => []
  | some m =>
    match st.conversations.find? (fun c => c.id == m.conversationId) with
    | none => []
    | some conv =>
      [ { room := "conversation:" ++ conv.id
          event := "message:new"
          message := some m
          conversation := conv },
        { room := "conversations"
          event := "conversation:updated"
          message := none
          conversation := conv } ]

/-- Identity-resolver failure from the spec's taxonomy. -/
inductive IdentityError where
  | InvalidIdentity
deriving DecidableEq

/-- Function `deriveSenderId` as the spec words it (§4.1): fixed HR identifier on
the HR marker pattern, employee-prefixed slug otherwise, and an
`InvalidIdentity` failure on empty or non-string (`none`) input.  Written
from the spec to compare against the code. -/
def deriveSenderIdSpec (input : Option String) : Except IdentityError String :=
  match input with
  | none => Except.error IdentityError.InvalidIdentity
  | some name =>
    if name = "" then Except.error IdentityError.InvalidIdentity
    else if isHRName name then Except.ok "hr_sconnor"
    else Except.ok ("emp_" ++ slugify name)

/-- The code's `getSenderIdFromParticipantName` lifted to the same
signature: a falsy input (`none` or the empty string) is caught by the
`if (!participantName)` guard and returns `''`; no input ever produces a
failure. -/
def getSenderIdE (input : Option String) : Except IdentityError String :=
  Except.ok (getSenderIdFromParticipantName (input.getD ""))

/-- The stored conversation preview: the built preview string as persisted
by the metadata update, `lastMessage.substring(0, 100)`. -/
def storedPreview (text : String) (attachments : List Attachment) : String :=
  jsSubstring (buildPreview text attachments) 100

/-- The preview as the spec words it (§4.3 step 5): the trimmed text when
present, then a glyph-tagged summary of the first attachment (image
marker + name for kind image, file marker + name otherwise), then a
`(+k)` suffix with `k = attachmentCount - 1` when more than one
attachment is present, the whole truncated to 100 characters.  Written
from the spec to compare against the code. -/
def previewSpec (text : String) (attachments : List Attachment) : String :=
  let base := jsTrim text
  let withAtt :=
    match attachments with
    | [] => base
    | a :: _ =>
      let summary := (if a.type == "image" then "📷" else "📄") ++ " " ++ a.name
      if base == "" then summary else base ++ " " ++ summary
  let withCount :=
    if attachments.length > 1 then
      withAtt ++ " (+" ++ toString (attachments.length - 1) ++ ")"
    else withAtt
  jsSubstring withCount 100


/-! ### Concrete fixtures used by witnesses -/

/-- An image attachment as produced by the blob-upload collaborator. -/
def photoAtt : Attachment :=
  { url := "http://cdn/photo.jpg", type := "image", name := "photo.jpg",
    size := 2048, publicId := some "pid1" }

/-- A non-image attachment. -/
def pdfAtt : Attachment :=
  { url := "http://cdn/report.pdf", type := "file", name := "report.pdf",
    size := 4096, publicId := none }

/-- Alice's conversation, provisioned as the seed process does. -/
def convAlice : Conversation :=
  { id := "507f1f77bcf86cd799439011"
    employeeId := "emp_alice_johnson"
    employeeName := "Alice Johnson"
    participantNames := ["Sarah Connor (HR)", "Alice Johnson"]
    lastMessage := ""
    lastMessageTimestamp := none }

/-- A store holding only Alice's conversation. -/
def stAlice : ServerState := { conversations := [convAlice], messages := [] }

/-- A conversation with no recorded activity yet. -/
def convC1 : Conversation :=
  { id := "507f1f77bcf86cd799439012"
    employeeId := "emp_bob_smith"
    employeeName := "Bob Smith"
    participantNames := ["Sarah Connor (HR)", "Bob Smith"]
    lastMessage := ""
    lastMessageTimestamp := none }

/-- A conversation whose recorded activity is already newer than an
incoming message timestamp of 3. -/
def convLoser : Conversation :=
  { id := "507f1f77bcf86cd799439013"
    employeeId := "emp_cara_diaz"
    employeeName := "Cara Diaz"
    participantNames := ["Sarah Connor (HR)", "Cara Diaz"]
    lastMessage := "newer"
    lastMessageTimestamp := some 10 }

/-- A message sitting in Alice's conversation, for the fan-out fixture. -/
def msgAlice : Message :=
  { id := 0, conversationId := "507f1f77bcf86cd799439011", senderId := "hr_sconnor",
    text := "Hi Alice", attachments := [], timestamp := 5 }

/-- A message whose owning conversation is absent from the store. -/
def msgOrphan : Message :=
  { id := 1, conversationId := "ffffffffffffffffffffffff", senderId := "hr_sconnor",
    text := "ghost", attachments := [], timestamp := 6 }

/-- Store for the fan-out fixture: Alice's conversation, one message in
it, and one message whose conversation no longer exists. -/
def stFanout : ServerState :=
  { conversations := [convAlice], messages := [msgAlice, msgOrphan] }

/-! ### Helper lemmas -/

theorem jsData_append (a b : String) : (a ++ b).data = a.data ++ b.data := by
  cases a; cases b; rfl

theorem jsString_ext {a b : String} (h : a.data = b.data) : a = b := by
  cases a; cases b; cases h; rfl

theorem condUpdateMeta_id (c : Conversation) (target preview : String) (ts : Nat) :
    (condUpdateMeta c target preview ts).id = c.id := by
  unfold condUpdateMeta; split <;> rfl

theorem condUpdateMeta_employeeId (c : Conversation) (target preview : String) (ts : Nat) :
    (condUpdateMeta c target preview ts).employeeId = c.employeeId := by
  unfold condUpdateMeta; split <;> rfl

theorem isHRName_ne_empty {name : String} (h : isHRName name = true) : name ≠ "" := by
  intro he
  subst he
  exact absurd h (by decide)

theorem isObjectIdLike_ne_empty {s : String} (h : isObjectIdLike s = true) : s ≠ "" := by
  intro he
  subst he
  exact absurd h (by decide)

theorem getSenderId_of_hr {name : String} (h : isHRName name = true) :
    getSenderIdFromParticipantName name = "hr_sconnor" := by
  unfold getSenderIdFromParticipantName
  rw [if_neg, if_pos h]
  simp [isHRName_ne_empty h]

theorem getSenderId_of_emp {name : String} (hne : name ≠ "") (h : isHRName name = false) :
    getSenderIdFromParticipantName name = "emp_" ++ slugify name := by
  unfold getSenderIdFromParticipantName generateEmployeeId
  rw [if_neg, if_neg, if_neg] <;> simp [hne, h]

/-! ### C1 -/

/-- C1: for two accepted messages with server-assigned timestamps
`t1 < t2` whose conversation's current `lastActivityAt` is absent or
earlier than `t2`, applying the conditional metadata update for both
messages in either arrival order leaves `lastMessageTimestamp` at
`max t1 t2` and `lastMessage` at the (100-character) preview of the later
message, never the earlier one; and whenever the guard fails the update
leaves the conversation untouched (losing the race is not an error). -/
theorem metaUpdate_reorder_safe
    (conv loser : Conversation) (p1 p2 pl : String) (t1 t2 tl : Nat)
    (h12 : t1 < t2) (hg : metaGuard conv.lastMessageTimestamp t2 = true)
    (hl : metaGuard loser.lastMessageTimestamp tl = false) :
    ((condUpdateMeta (condUpdateMeta conv conv.id p1 t1) conv.id p2 t2).lastMessageTimestamp
        = some (max t1 t2) ∧
     (condUpdateMeta (condUpdateMeta conv conv.id p1 t1) conv.id p2 t2).lastMessage
        = jsSubstring p2 100) ∧
    ((condUpdateMeta (condUpdateMeta conv conv.id p2 t2) conv.id p1 t1).lastMessageTimestamp
        = some (max t1 t2) ∧
     (condUpdateMeta (condUpdateMeta conv conv.id p2 t2) conv.id p1 t1).lastMessage
        = jsSubstring p2 100) ∧
    condUpdateMeta loser loser.id pl tl = loser := by
  have hmax : max t1 t2 = t2 := Nat.max_eq_right (Nat.le_of_lt h12)
  have hstep : metaGuard (some t1) t2 = true := by
    simp [metaGuard, h12]
  have hnot : metaGuard (some t2) t1 = false := by
    simp [metaGuard]
    omega
  refine ⟨?_, ?_, ?_⟩
  · rw [hmax]
    by_cases h1 : metaGuard conv.lastMessageTimestamp t1 = true
    · simp [condUpdateMeta, h1, hstep]
    · simp only [Bool.not_eq_true] at h1
      simp [condUpdateMeta, h1, hg]
  · rw [hmax]
    simp [condUpdateMeta, hg, hnot]
  · simp [condUpdateMeta, hl]

/-- Witness for C1 at concrete inputs. -/
theorem metaUpdate_reorder_safe_witness :
    (1 : Nat) < 2 ∧
    metaGuard convC1.lastMessageTimestamp 2 = true ∧
    metaGuard convLoser.lastMessageTimestamp 3 = false ∧
    (((condUpdateMeta (condUpdateMeta convC1 convC1.id "Hi Alice" 1) convC1.id "Thanks!" 2).lastMessageTimestamp
        = some (max 1 2) ∧
     (condUpdateMeta (condUpdateMeta convC1 convC1.id "Hi Alice" 1) convC1.id "Thanks!" 2).lastMessage
        = jsSubstring "Thanks!" 100) ∧
    ((condUpdateMeta (condUpdateMeta convC1 convC1.id "Thanks!" 2) convC1.id "Hi Alice" 1).lastMessageTimestamp
        = some (max 1 2) ∧
     (condUpdateMeta (condUpdateMeta convC1 convC1.id "Thanks!" 2) convC1.id "Hi Alice" 1).lastMessage
        = jsSubstring "Thanks!" 100) ∧
    condUpdateMeta convLoser convLoser.id "old" 3 = convLoser) :=
  ⟨by decide, by decide, by decide,
   metaUpdate_reorder_safe convC1 convLoser "Hi Alice" "Thanks!" "old" 1 2 3
     (by decide) (by decide) (by decide)⟩

/-! ### C8 -/

/-- C8 counterexample: on the empty name the code returns the empty
identifier as an ordinary value, while the spec's `deriveSenderId` demands
an `InvalidIdentity` failure — the claim's failure clause is false at
input `""`. -/
theorem deriveSenderId_empty_counterexample :
    getSenderIdE (some "") = Except.ok "" ∧
    getSenderIdE none = Except.ok "" ∧
    deriveSenderIdSpec (some "") = Except.error IdentityError.InvalidIdentity := by
  refine ⟨rfl, rfl, rfl⟩

/-- C8 amended: `deriveSenderId` is deterministic and total for every
non-empty name — the fixed HR identifier when the name matches the HR
marker pattern, otherwise the employee-prefixed slug — and on empty or
non-string (falsy) input it returns the empty identifier `''` rather than
failing. -/
theorem deriveSenderId_total_characterization (name : String) (h : name ≠ "") :
    getSenderIdFromParticipantName name
      = (if isHRName name then "hr_sconnor" else "emp_" ++ slugify name) ∧
    getSenderIdFromParticipantName "" = "" ∧
    getSenderIdE none = Except.ok "" := by
  refine ⟨?_, rfl, rfl⟩
  by_cases hhr : isHRName name = true
  · rw [getSenderId_of_hr hhr, if_pos hhr]
  · simp only [Bool.not_eq_true] at hhr
    rw [getSenderId_of_emp h hhr, if_neg]
    simp [hhr]

/-- Witness for C8 at a concrete non-empty name. -/
theorem deriveSenderId_total_characterization_witness :
    ("Alice Johnson" : String) ≠ "" ∧
    (getSenderIdFromParticipantName "Alice Johnson"
      = (if isHRName "Alice Johnson" then "hr_sconnor" else "emp_" ++ slugify "Alice Johnson") ∧
    getSenderIdFromParticipantName "" = "" ∧
    getSenderIdE none = Except.ok "") :=
  ⟨by decide, deriveSenderId_total_characterization "Alice Johnson" (by decide)⟩

/-! ### C2 -/

/-- C2 counterexample: with `participantNames = ["John Boss", "Alice
Johnson"]` the identifier derivable from `participantNames[0]` is
`emp_john_boss`, yet the service's sender validation rejects it — the
claimed "if and only if" fails at this input. -/
theorem validateSender_counterexample :
    getSenderIdFromParticipantName "John Boss" = "emp_john_boss" ∧
    validateSenderId "emp_john_boss" ["John Boss", "Alice Johnson"] = false := by
  refine ⟨by decide, by decide⟩

/-- C2 amended: for a conversation whose first participant name matches
the HR marker pattern and whose second is non-empty and does not, the
service accepts exactly the two identifiers derivable from the two
participant names and rejects all others.  (In general the code only ever
accepts the fixed HR identifier for `participantNames[0]` — when that name
matches the HR pattern — and the employee slug of `participantNames[1]`,
so the equivalence requires these side conditions.) -/
theorem validateSender_iff_derived (hr emp senderId : String)
    (hHR : isHRName hr = true) (hEmpNotHR : isHRName emp = false) (hEmpNe : emp ≠ "") :
    validateSenderId senderId [hr, emp] = true ↔
      (senderId = getSenderIdFromParticipantName hr ∨
       senderId = getSenderIdFromParticipantName emp) := by
  have hhrne : hr ≠ "" := isHRName_ne_empty hHR
  rw [getSenderId_of_hr hHR, getSenderId_of_emp hEmpNe hEmpNotHR]
  unfold validateSenderId
  by_cases hs : senderId = "hr_sconnor"
  · simp [hs, hHR, hhrne]
  · simp [hs, hHR, hhrne, hEmpNe]

/-- Witness for C2 at the seeded participant names. -/
theorem validateSender_iff_derived_witness :
    isHRName "Sarah Connor (HR)" = true ∧
    isHRName "Alice Johnson" = false ∧
    ("Alice Johnson" : String) ≠ "" ∧
    (validateSenderId "hr_sconnor" ["Sarah Connor (HR)", "Alice Johnson"] = true ↔
      ("hr_sconnor" = getSenderIdFromParticipantName "Sarah Connor (HR)" ∨
       "hr_sconnor" = getSenderIdFromParticipantName "Alice Johnson")) :=
  ⟨by decide, by decide, by decide,
   validateSender_iff_derived "Sarah Connor (HR)" "Alice Johnson" "hr_sconnor"
     (by decide) (by decide) (by decide)⟩

/-! ### C3 -/

/-- C3 counterexample: a blank message posted to an unresolvable
conversation id fails with `EmptyMessage`, not `ConversationNotFound` —
the controller's empty-message check runs before the service's
conversation resolution. -/
theorem emptyToGhost_counterexample :
    resolveConversation (ServerState.mk [] []).conversations "ghost_employee" = none ∧
    (appendMessage (ServerState.mk [] []) "ghost_employee" "hr_sconnor" "" [] 0).fst
      = Except.error AppendError.EmptyMessage ∧
    AppendError.EmptyMessage ≠ AppendError.ConversationNotFound := by
  refine ⟨rfl, rfl, by decide⟩

/-- C3 amended: the empty-message check precedes conversation resolution,
so a blank message (blank text and no attachments) fails with
`EmptyMessage` even when the conversation id resolves to nothing;
`ConversationNotFound` is the failure for an unresolvable conversation id
only when the message is non-empty and passes the controller's length and
attachment checks. -/
theorem notFound_after_emptiness (st : ServerState) (cid sid text : String)
    (atts : List Attachment) (now : Nat)
    (hcid : cid ≠ "") (hsid : sid ≠ "")
    (hnf : resolveConversation st.conversations cid = none) :
    (jsTrim text = "" ∧ atts = [] →
      (appendMessage st cid sid text atts now).fst = Except.error AppendError.EmptyMessage) ∧
    (¬(jsTrim text = "" ∧ atts = []) →
      (jsTrim text).data.length ≤ 1000 →
      atts.all validAttachment = true →
      (appendMessage st cid sid text atts now).fst
        = Except.error AppendError.ConversationNotFound) := by
  have h1 : (cid == "" || sid == "") = false := by
    simp [hcid, hsid]
  constructor
  · rintro ⟨ht, ha⟩
    unfold appendMessage
    rw [if_neg (by simp [h1]), if_pos (by simp [ht, ha])]
  · intro hne hlen hatts
    unfold appendMessage
    rw [if_neg (by simp [h1]), if_neg, if_neg (by omega), if_neg (by simp [hatts]), hnf]
    rcases not_and_or.mp hne with h | h
    · simp [h]
    · simp [h]

/-- Witness for C3's amended statement: Alice's store, a ghost key, both
branches exercised at concrete messages. -/
theorem notFound_after_emptiness_witness :
    resolveConversation stAlice.conversations "ghost_employee" = none ∧
    (appendMessage stAlice "ghost_employee" "hr_sconnor" "" [] 7).fst
      = Except.error AppendError.EmptyMessage ∧
    (appendMessage stAlice "ghost_employee" "hr_sconnor" "hello" [] 7).fst
      = Except.error AppendError.ConversationNotFound := by
  have h1 := notFound_after_emptiness stAlice "ghost_employee" "hr_sconnor" "" [] 7
    (by decide) (by decide) (by decide)
  have h2 := notFound_after_emptiness stAlice "ghost_employee" "hr_sconnor" "hello" [] 7
    (by decide) (by decide) (by decide)
  exact ⟨by decide, h1.1 ⟨by decide, rfl⟩, h2.2 (by decide) (by decide) (by decide)⟩

/-! ### C10 -/

theorem appendMessage_snd_cases (st : ServerState) (cid sid text : String)
    (atts : List Attachment) (now : Nat) :
    (appendMessage st cid sid text atts now).snd = st ∨
      ∃ m, (appendMessage st cid sid text atts now).fst = Except.ok m := by
  unfold appendMessage
  repeat' split
  all_goals first | exact Or.inl rfl | exact Or.inr ⟨_, rfl⟩

/-- C10: whenever the append pipeline fails with any validation error, the
store is left untouched — no message document is persisted and no
conversation metadata changes, because in the source every failure is
thrown before `newMessage.save()` and the metadata update runs only after
a successful save. -/
theorem append_fail_leaves_state (st : ServerState) (cid sid text : String)
    (atts : List Attachment) (now : Nat) (e : AppendError)
    (h : (appendMessage st cid sid text atts now).fst = Except.error e) :
    (appendMessage st cid sid text atts now).snd = st := by
  rcases appendMessage_snd_cases st cid sid text atts now with hs | ⟨m, hm⟩
  · exact hs
  · rw [hm] at h
    exact absurd h (by simp)

/-- Witness for C10: an invalid sender posting into Alice's conversation
leaves the store exactly as it was. -/
theorem append_fail_leaves_state_witness :
    (appendMessage stAlice "emp_alice_johnson" "emp_bob_smith" "hi" [] 3).fst
      = Except.error AppendError.InvalidSender ∧
    (appendMessage stAlice "emp_alice_johnson" "emp_bob_smith" "hi" [] 3).snd = stAlice :=
  ⟨rfl,
   append_fail_leaves_state stAlice "emp_alice_johnson" "emp_bob_smith" "hi" [] 3
     AppendError.InvalidSender rfl⟩

/-! ### C7 -/

/-- C7: on a message-appended change event the broker re-resolves the
owning conversation; when resolution succeeds it emits `message:new` to
that conversation's room and `conversation:updated` — carrying the
refreshed conversation — to the global `conversations` room, and when
resolution fails both notifications are dropped (the handler emits
nothing and only logs), which is non-fatal. -/
theorem fanout_on_message_insert (st : ServerState) (mid : Nat) (m : Message)
    (hm : st.messages.find? (fun x => x.id == mid) = some m) :
    (∀ conv : Conversation,
      st.conversations.find? (fun c => c.id == m.conversationId) = some conv →
        handleMessageInsert st mid =
          [ { room := "conversation:" ++ conv.id, event := "message:new",
              message := some m, conversation := conv },
            { room := "conversations", event := "conversation:updated",
              message := none, conversation := conv } ]) ∧
    (st.conversations.find? (fun c => c.id == m.conversationId) = none →
      handleMessageInsert st mid = []) := by
  constructor
  · intro conv hconv
    simp only [handleMessageInsert, hm, hconv]
  · intro hnone
    simp only [handleMessageInsert, hm, hnone]

/-- Witness for C7: in the fan-out fixture, message 0 resolves to Alice's
conversation and produces exactly the two notifications; message 1's
conversation is missing and produces none. -/
theorem fanout_on_message_insert_witness :
    stFanout.messages.find? (fun x => x.id == 0) = some msgAlice ∧
    stFanout.conversations.find? (fun c => c.id == msgAlice.conversationId)
      = some convAlice ∧
    handleMessageInsert stFanout 0 =
      [ { room := "conversation:" ++ convAlice.id, event := "message:new",
          message := some msgAlice, conversation := convAlice },
        { room := "conversations", event := "conversation:updated",
          message := none, conversation := convAlice } ] :=
  ⟨rfl, rfl, (fanout_on_message_insert stFanout 0 msgAlice rfl).1 convAlice rfl⟩

/-! ### Success path of the append pipeline -/

theorem appendMessage_ok (st : ServerState) (cid sid text : String) (atts : List Attachment)
    (now : Nat) (conv : Conversation)
    (hcid : cid ≠ "") (hsid : sid ≠ "")
    (hne : jsTrim text ≠ "" ∨ atts ≠ [])
    (hlen : (jsTrim text).data.length ≤ 1000)
    (hatts : atts.all validAttachment = true)
    (hconv : resolveConversation st.conversations cid = some conv)
    (hsender : validateSenderId sid conv.participantNames = true) :
    appendMessage st cid sid text atts now =
      (Except.ok
        { id := st.messages.length, conversationId := conv.id, senderId := sid,
          text := jsTrim text, attachments := atts, timestamp := now },
       { conversations := st.conversations.map
            (fun c => condUpdateMeta c conv.id (buildPreview text atts) now)
         messages := st.messages ++
           [{ id := st.messages.length, conversationId := conv.id, senderId := sid,
              text := jsTrim text, attachments := atts, timestamp := now }] }) := by
  have h2 : ¬((jsTrim text == "" && atts.isEmpty) = true) := by
    rcases hne with h | h <;> simp [h, List.isEmpty_iff]
  have h3 : ¬((jsTrim text).data.length > 1000) := by omega
  have h4 : ¬((!atts.all validAttachment) = true) := by simp [hatts]
  have h5 : ¬((!validateSenderId sid conv.participantNames) = true) := by simp [hsender]
  unfold appendMessage
  rw [if_neg (by simp [hcid, hsid]), if_neg h2, if_neg h3, if_neg h4]
  simp only [hconv]
  rw [if_neg h5]

theorem find?_employeeId_map (convs : List Conversation) (target preview : String)
    (ts : Nat) (key : String) :
    (convs.map (fun c => condUpdateMeta c target preview ts)).find?
        (fun c => c.employeeId == key)
      = (convs.find? (fun c => c.employeeId == key)).map
          (fun c => condUpdateMeta c target preview ts) := by
  rw [List.find?_map]
  have hp : ((fun c : Conversation => c.employeeId == key) ∘
      (fun c => condUpdateMeta c target preview ts))
      = (fun c : Conversation => c.employeeId == key) := by
    funext c
    simp [Function.comp, condUpdateMeta_employeeId]
  rw [hp]

theorem find?_id_map (convs : List Conversation) (target preview : String)
    (ts : Nat) (key : String) :
    (convs.map (fun c => condUpdateMeta c target preview ts)).find?
        (fun c => c.id == key)
      = (convs.find? (fun c => c.id == key)).map
          (fun c => condUpdateMeta c target preview ts) := by
  rw [List.find?_map]
  have hp : ((fun c : Conversation => c.id == key) ∘
      (fun c => condUpdateMeta c target preview ts))
      = (fun c : Conversation => c.id == key) := by
    funext c
    simp [Function.comp, condUpdateMeta_id]
  rw [hp]

theorem resolveConversation_after_meta (convs : List Conversation) (target preview : String)
    (ts : Nat) (key : String) :
    resolveConversation (convs.map (fun c => condUpdateMeta c target preview ts)) key
      = (resolveConversation convs key).map (fun c => condUpdateMeta c target preview ts) := by
  unfold resolveConversation
  rw [find?_employeeId_map]
  cases h : convs.find? (fun c => c.employeeId == key) with
  | some c => simp
  | none =>
    simp only [Option.map_none']
    split
    · rw [find?_id_map]
    · rfl

theorem list_after_append (st : ServerState) (cid preview : String) (conv : Conversation)
    (m : Message) (now : Nat)
    (hconv : resolveConversation st.conversations cid = some conv)
    (hm : m.conversationId = conv.id) :
    getMessagesByConversationId
        { conversations := st.conversations.map (fun c => condUpdateMeta c conv.id preview now)
          messages := st.messages ++ [m] } cid
      = Except.ok (sortedMessagesOf (st.messages ++ [m]) conv.id) ∧
    m ∈ sortedMessagesOf (st.messages ++ [m]) conv.id ∧
    List.Sorted msgLe (sortedMessagesOf (st.messages ++ [m]) conv.id) := by
  refine ⟨?_, ?_, List.sorted_insertionSort msgLe _⟩
  · unfold getMessagesByConversationId
    simp only [resolveConversation_after_meta, hconv, Option.map_some', condUpdateMeta_id]
  · unfold sortedMessagesOf
    rw [List.mem_insertionSort]
    exact List.mem_filter.mpr
      ⟨List.mem_append_right _ (List.mem_singleton.mpr rfl), by simp [hm]⟩

/-! ### C5 -/

/-- C5: any valid `(text, attachments)` pair with non-blank text or at
least one attachment, posted to an existing conversation by a valid
sender, is accepted, and retrieving the conversation afterwards returns a
message list sorted ascending by `sentAt` that contains the newly appended
message. -/
theorem append_then_ordered_retrieval (st : ServerState) (cid sid text : String)
    (atts : List Attachment) (now : Nat) (conv : Conversation)
    (hcid : cid ≠ "") (hsid : sid ≠ "")
    (hne : jsTrim text ≠ "" ∨ atts ≠ [])
    (hlen : (jsTrim text).data.length ≤ 1000)
    (hatts : atts.all validAttachment = true)
    (hconv : resolveConversation st.conversations cid = some conv)
    (hsender : validateSenderId sid conv.participantNames = true) :
    ∃ m st', appendMessage st cid sid text atts now = (Except.ok m, st') ∧
      ∃ msgs, getMessagesByConversationId st' cid = Except.ok msgs ∧
        m ∈ msgs ∧ List.Sorted msgLe msgs := by
  refine ⟨_, _,
    appendMessage_ok st cid sid text atts now conv hcid hsid hne hlen hatts hconv hsender, ?_⟩
  obtain ⟨h1, h2, h3⟩ := list_after_append st cid (buildPreview text atts) conv
    { id := st.messages.length, conversationId := conv.id, senderId := sid,
      text := jsTrim text, attachments := atts, timestamp := now } now hconv rfl
  exact ⟨_, h1, h2, h3⟩

/-- Witness for C5: HR posts "Hi Alice" into Alice's conversation. -/
theorem append_then_ordered_retrieval_witness :
    (resolveConversation stAlice.conversations "emp_alice_johnson" = some convAlice) ∧
    (validateSenderId "hr_sconnor" convAlice.participantNames = true) ∧
    (∃ m st', appendMessage stAlice "emp_alice_johnson" "hr_sconnor" "Hi Alice" [] 5
        = (Except.ok m, st') ∧
      ∃ msgs, getMessagesByConversationId st' "emp_alice_johnson" = Except.ok msgs ∧
        m ∈ msgs ∧ List.Sorted msgLe msgs) :=
  ⟨rfl, by decide,
   append_then_ordered_retrieval stAlice "emp_alice_johnson" "hr_sconnor" "Hi Alice" [] 5
     convAlice (by decide) (by decide) (Or.inl (by decide)) (by decide) (by decide)
     rfl (by decide)⟩

/-! ### C9 -/

/-- C9: a message appended with any list of valid attachments stores that
list verbatim — same count, same order, every field intact — and the
message retrieved afterwards from its conversation carries exactly that
list. -/
theorem attachments_roundtrip (st : ServerState) (cid sid text : String)
    (atts : List Attachment) (now : Nat) (conv : Conversation)
    (hcid : cid ≠ "") (hsid : sid ≠ "")
    (hne : jsTrim text ≠ "" ∨ atts ≠ [])
    (hlen : (jsTrim text).data.length ≤ 1000)
    (hatts : atts.all validAttachment = true)
    (hconv : resolveConversation st.conversations cid = some conv)
    (hsender : validateSenderId sid conv.participantNames = true) :
    ∃ m st', appendMessage st cid sid text atts now = (Except.ok m, st') ∧
      m.attachments = atts ∧
      ∃ msgs, getMessagesByConversationId st' cid = Except.ok msgs ∧ m ∈ msgs := by
  refine ⟨_, _,
    appendMessage_ok st cid sid text atts now conv hcid hsid hne hlen hatts hconv hsender,
    rfl, ?_⟩
  obtain ⟨h1, h2, _⟩ := list_after_append st cid (buildPreview text atts) conv
    { id := st.messages.length, conversationId := conv.id, senderId := sid,
      text := jsTrim text, attachments := atts, timestamp := now } now hconv rfl
  exact ⟨_, h1, h2⟩

/-- Witness for C9: Alice sends two attachments with no text; both come
back in order with all fields intact. -/
theorem attachments_roundtrip_witness :
    (resolveConversation stAlice.conversations "emp_alice_johnson" = some convAlice) ∧
    ([photoAtt, pdfAtt].all validAttachment = true) ∧
    (∃ m st', appendMessage stAlice "emp_alice_johnson" "emp_alice_johnson" ""
        [photoAtt, pdfAtt] 9 = (Except.ok m, st') ∧
      m.attachments = [photoAtt, pdfAtt] ∧
      ∃ msgs, getMessagesByConversationId st' "emp_alice_johnson" = Except.ok msgs ∧
        m ∈ msgs) :=
  ⟨rfl, by decide,
   attachments_roundtrip stAlice "emp_alice_johnson" "emp_alice_johnson" ""
     [photoAtt, pdfAtt] 9 convAlice (by decide) (by decide) (Or.inr (by decide))
     (by decide) (by decide) rfl (by decide)⟩

/-! ### C6 -/

/-- C6: for an existing conversation, the append pipeline and the
retrieval pipeline invoked with the conversation's `employeeKey` and with
its store-assigned internal id resolve to the same owning conversation and
behave identically; moreover the `employeeKey` lookup is tried first —
whenever some conversation matches the supplied key by `employeeId`, the
resolver returns that match without consulting the id lookup. -/
theorem dual_lookup_equiv (st : ServerState) (conv : Conversation)
    (hEmpNe : conv.employeeId ≠ "")
    (hfindEmp : st.conversations.find? (fun c => c.employeeId == conv.employeeId) = some conv)
    (hOid : isObjectIdLike conv.id = true)
    (hNoCollide : st.conversations.find? (fun c => c.employeeId == conv.id) = none)
    (hfindId : st.conversations.find? (fun c => c.id == conv.id) = some conv) :
    resolveConversation st.conversations conv.employeeId = some conv ∧
    resolveConversation st.conversations conv.id = some conv ∧
    (∀ sid text atts now, appendMessage st conv.employeeId sid text atts now
        = appendMessage st conv.id sid text atts now) ∧
    getMessagesByConversationId st conv.employeeId
      = getMessagesByConversationId st conv.id ∧
    (∀ key c2, st.conversations.find? (fun c => c.employeeId == key) = some c2 →
      resolveConversation st.conversations key = some c2) := by
  have hIdNe : conv.id ≠ "" := isObjectIdLike_ne_empty hOid
  have r1 : resolveConversation st.conversations conv.employeeId = some conv := by
    unfold resolveConversation
    rw [hfindEmp]
  have r2 : resolveConversation st.conversations conv.id = some conv := by
    unfold resolveConversation
    simp only [hNoCollide]
    rw [if_pos hOid, hfindId]
  refine ⟨r1, r2, ?_, ?_, ?_⟩
  · intro sid text atts now
    unfold appendMessage
    by_cases hs : sid = ""
    · simp [hs]
    · have g1 : (conv.employeeId == "" || sid == "") = false := by simp [hEmpNe, hs]
      have g2 : (conv.id == "" || sid == "") = false := by simp [hIdNe, hs]
      simp only [g1, g2, r1, r2, Bool.false_eq_true, if_false]
  · unfold getMessagesByConversationId
    simp only [r1, r2]
  · intro key c2 hfind
    unfold resolveConversation
    rw [hfind]

/-- Witness for C6: Alice's conversation reached through its employee key
and through its ObjectId behaves identically. -/
theorem dual_lookup_equiv_witness :
    (stAlice.conversations.find?
        (fun c => c.employeeId == convAlice.employeeId) = some convAlice) ∧
    (isObjectIdLike convAlice.id = true) ∧
    resolveConversation stAlice.conversations convAlice.employeeId = some convAlice ∧
    resolveConversation stAlice.conversations convAlice.id = some convAlice ∧
    appendMessage stAlice convAlice.employeeId "hr_sconnor" "Hi" [] 4
      = appendMessage stAlice convAlice.id "hr_sconnor" "Hi" [] 4 ∧
    getMessagesByConversationId stAlice convAlice.employeeId
      = getMessagesByConversationId stAlice convAlice.id := by
  have h := dual_lookup_equiv stAlice convAlice (by decide) rfl (by decide) rfl rfl
  exact ⟨rfl, by decide, h.1, h.2.1, h.2.2.1 "hr_sconnor" "Hi" [] 4, h.2.2.2.1⟩

/-! ### C4 -/

theorem dataSpImgSp : (" 📷 " : String).data = [' ', '📷', ' '] := rfl

theorem dataSpFileSp : (" 📄 " : String).data = [' ', '📄', ' '] := rfl

theorem dataImgSp : ("📷 " : String).data = ['📷', ' '] := rfl

theorem dataFileSp : ("📄 " : String).data = ['📄', ' '] := rfl

theorem dataImg : ("📷" : String).data = ['📷'] := rfl

theorem dataFile : ("📄" : String).data = ['📄'] := rfl

theorem dataSp : (" " : String).data = [' '] := rfl

theorem dataSpParenPlus : (" (+" : String).data = [' ', '(', '+'] := rfl

theorem dataParenClose : (")" : String).data = [')'] := rfl

/-- C4: the stored conversation preview equals the spec's description —
trimmed text when present, then a glyph-tagged summary of the first
attachment (image marker + name for kind image, file marker + name
otherwise), then a `(+k)` suffix with `k = attachmentCount - 1` when more
than one attachment is present, truncated to 100 characters; in
particular one image attachment named "photo.jpg" with no text yields the
image marker + "photo.jpg", and a second attachment adds "(+1)". -/
theorem preview_matches_spec :
    (∀ text atts, storedPreview text atts = previewSpec text atts) ∧
    storedPreview "" [photoAtt] = "📷 photo.jpg" ∧
    storedPreview "" [photoAtt, pdfAtt] = "📷 photo.jpg (+1)" ∧
    storedPreview "Report attached" [pdfAtt] = "Report attached 📄 report.pdf" := by
  refine ⟨?_, by decide, by decide, by decide⟩
  intro text atts
  apply jsString_ext
  unfold storedPreview previewSpec buildPreview jsSubstring
  cases atts with
  | nil => rfl
  | cons a rest =>
    cases rest with
    | nil =>
      have c1 : ¬(List.length ([] : List Attachment) ≥ 1) := by simp
      have c2 : ¬((a :: ([] : List Attachment)).length > 1) := by simp
      by_cases himg : (a.type == "image") = true <;>
        by_cases hb : (jsTrim text == "") = true <;>
          simp [himg, hb, bne, c1, c2, jsData_append, List.append_assoc,
            dataSpImgSp, dataSpFileSp, dataImgSp, dataFileSp, dataImg, dataFile,
            dataSp, dataSpParenPlus, dataParenClose]
    | cons b bs =>
      have c1 : (b :: bs).length ≥ 1 := by
        simp only [List.length_cons]
        omega
      have c2 : (a :: b :: bs).length > 1 := by
        simp only [List.length_cons]
        omega
      by_cases himg : (a.type == "image") = true <;>
        by_cases hb : (jsTrim text == "") = true <;>
          simp [himg, hb, bne, c1, c2, jsData_append, List.append_assoc,
            dataSpImgSp, dataSpFileSp, dataImgSp, dataFileSp, dataImg, dataFile,
            dataSp, dataSpParenPlus, dataParenClose]
